import Mathlib

/-!
Shallow embedding of the radar packing-slip/shipping-label PDF pipeline
(sorter.py, label_sorter.py, aggregator.py, stamper.py, preorder_marker.py,
main.py).  Page texts are modelled as lists of characters; the external
text-extraction collaborator's spatial search is modelled as an oracle
function from a literal string to the list of rectangles it returns.
-/

namespace Radar

/-- Page text and all other strings of the model: a list of characters. -/
abbrev Str := List Char

/-- ASCII digit test, the model of the regex class `\d` on the inputs at hand. -/
def isDigitC (c : Char) : Bool := 48 ≤ c.toNat && c.toNat ≤ 57

/-- Alphanumeric test, the model of the regex class `[A-Za-z0-9]`. -/
def isAlnumC (c : Char) : Bool :=
  (48 ≤ c.toNat && c.toNat ≤ 57) || (97 ≤ c.toNat && c.toNat ≤ 122) ||
    (65 ≤ c.toNat && c.toNat ≤ 90)

/-- Whitespace test: the ASCII whitespace characters recognised by `\s`
and by Python's `str.strip`. -/
def isSpaceC (c : Char) : Bool :=
  c = ' ' || c = '\t' || c = '\n' || c = '\r' || c = '\x0b' || c = '\x0c'

/-- Value of a digit string, as Python's `int` computes it. -/
def natOfDigits (ds : Str) : Nat :=
  ds.foldl (fun n c => 10 * n + (c.toNat - 48)) 0

/-- Python's `str.strip()`: drop leading and trailing whitespace. -/
def stripChars (s : Str) : Str :=
  ((s.dropWhile isSpaceC).reverse.dropWhile isSpaceC).reverse

/-- Python's `text.split('\n')`: the resulting list is never empty. -/
def splitNl : Str → List Str
  | [] => [[]]
  | c :: rest =>
    match splitNl rest with
    | s :: ss => if c = '\n' then [] :: s :: ss else (c :: s) :: ss
    | [] => if c = '\n' then [[], []] else [[c]]

/-! ## sorter.py / label_sorter.py: page sort keys -/

/-- Attempt of the regex `(\d+) of (\d+)` at position `p` of `text`
(sorter.py line 25).  On success returns the value of the first captured
group.  The first `\d+` is necessarily the maximal digit run at `p`,
since shrinking it leaves a digit where the literal space is required. -/
def matchSeqAt (text : Str) (p : Nat) : Option Nat :=
  let s := text.drop p
  let d1 := s.takeWhile isDigitC
  if d1.isEmpty then none
  else
    let s1 := s.dropWhile isDigitC
    if (" of ".toList).isPrefixOf s1 then
      match s1.drop 4 with
      | c :: _ => if isDigitC c then some (natOfDigits d1) else none
      | [] => none
    else none

/-- `re.search` of `(\d+) of (\d+)`: the leftmost position at which the
pattern matches, scanning positions left to right. -/
def seqSearch (text : Str) : Option Nat :=
  (List.range text.length).findSome? (fun p => matchSeqAt text p)

/-- sorter.py line 26: `seq_num = int(seq_match.group(1)) if seq_match else 0`. -/
def seqNumOf (text : Str) : Nat :=
  (seqSearch text).getD 0

/-- Attempt of the regex `Order #(\d+)` at position `p`. -/
def matchOrderAt (text : Str) (p : Nat) : Option Nat :=
  let s := text.drop p
  if ("Order #".toList).isPrefixOf s then
    let d := (s.drop 7).takeWhile isDigitC
    if d.isEmpty then none else some (natOfDigits d)
  else none

/-- `re.search` of `Order #(\d+)` over the page text. -/
def orderSearch (text : Str) : Option Nat :=
  (List.range text.length).findSome? (fun p => matchOrderAt text p)

/-- sorter.py line 22: the order number, `none` being the `float('inf')`
sentinel for a page with no order marker. -/
def orderNumOf (text : Str) : Option Nat :=
  orderSearch text

/-- Per-page metadata collected by both sorters. -/
structure PageMeta where
  index : Nat
  orderNum : Option Nat
  seqNum : Nat
deriving DecidableEq, Repr

/-- Comparison of order numbers where `none` models `float('inf')`. -/
def ordLe : Option Nat → Option Nat → Bool
  | none, none => true
  | none, some _ => false
  | some _, none => true
  | some a, some b => decide (a ≤ b)

/-- Python tuple comparison `(order_num, seq_num) <= (order_num, seq_num)`
used as the packing-slip sort key (sorter.py line 36). -/
def pageKeyLe (a b : PageMeta) : Bool :=
  if a.orderNum = b.orderNum then decide (a.seqNum ≤ b.seqNum)
  else ordLe a.orderNum b.orderNum

/-- Shipping-label sort key: order number only (label_sorter.py line 42). -/
def labelKeyLe (a b : PageMeta) : Bool :=
  ordLe a.orderNum b.orderNum

/-- Python's `enumerate`. -/
def enumF (l : List α) : List (Nat × α) :=
  (List.range l.length).zip l

/-- The metadata list built by the sorters' per-page loop. -/
def pageMetas (pages : List Str) : List PageMeta :=
  (enumF pages).map (fun pr => ⟨pr.1, orderNumOf pr.2, seqNumOf pr.2⟩)

/-- Index permutation produced by the packing-slip sorter: a stable sort of
the page metadata by `(order_num, seq_num)`, then the original indices in
sorted order (sorter.py lines 36-39). -/
def sortedIndices (pages : List Str) : List Nat :=
  (List.insertionSort (fun a b => pageKeyLe a b = true) (pageMetas pages)).map
    (fun m => m.index)

/-- sorter.py lines 40-46: `none` when the permutation is the identity (the
sorter returns without touching the file), otherwise the permutation passed
to `doc.select` before saving. -/
def sortPdfPlan (pages : List Str) : Option (List Nat) :=
  let idxs := sortedIndices pages
  if idxs = List.range idxs.length then none else some idxs

/-- Index permutation produced by the shipping-label sorter. -/
def labelSortedIndices (pages : List Str) : List Nat :=
  (List.insertionSort (fun a b => labelKeyLe a b = true) (pageMetas pages)).map
    (fun m => m.index)

/-- label_sorter.py lines 45-54: `none` when the permutation is the identity,
otherwise the permutation that is applied and saved. -/
def labelSortPlan (pages : List Str) : Option (List Nat) :=
  let idxs := labelSortedIndices pages
  if idxs = List.range idxs.length then none else some idxs

/-- Declarative statement that the regex `(\d+) of (\d+)` matches at
position `p` of `text` with first captured group of value `a`: the text
from `p` on decomposes as a nonempty digit run, the literal `" of "`, and
at least one further digit. -/
def SeqMatchAt (text : Str) (p a : Nat) : Prop :=
  ∃ d1 c rest, d1 ≠ [] ∧ (∀ x ∈ d1, isDigitC x = true) ∧ isDigitC c = true ∧
    text.drop p = d1 ++ (" of ".toList) ++ c :: rest ∧ a = natOfDigits d1

/-! ## aggregator.py: sequence-marker-anchored extraction -/

/-- aggregator.py line 47: the line-anchored sequence-marker rule
`re.match(r'^\s*\d+\s+of\s+\d+\s*$', line)`.  Each quantifier's maximal
munch is forced, because shrinking a `\d+` or `\s+` leaves a character of
the same class where the next literal is required. -/
def isSeqMarkerLine (s : Str) : Bool :=
  let s1 := s.dropWhile isSpaceC
  let d1 := s1.takeWhile isDigitC
  let s2 := s1.dropWhile isDigitC
  let w1 := s2.takeWhile isSpaceC
  let s3 := s2.dropWhile isSpaceC
  if d1.isEmpty || w1.isEmpty then false
  else
    match s3 with
    | 'o' :: 'f' :: s4 =>
      let w2 := s4.takeWhile isSpaceC
      let s5 := s4.dropWhile isSpaceC
      let d2 := s5.takeWhile isDigitC
      let s6 := s5.dropWhile isDigitC
      if w2.isEmpty || d2.isEmpty then false
      else (s6.dropWhile isSpaceC).isEmpty
    | _ => false

/-- First integer on a line, after leading whitespace. -/
def firstIntOfLine (s : Str) : Nat :=
  natOfDigits ((s.dropWhile isSpaceC).takeWhile isDigitC)

/-- Modelled from the spec's words, for comparison with the code: the
sequence number as claim C1 states it, read from the first line of the
page that consists solely of `<int> of <int>` (surrounding whitespace
allowed), or `0` if no such line is present. -/
def seqNumLineSpec (text : Str) : Nat :=
  match (splitNl text).find? isSeqMarkerLine with
  | some l => firstIntOfLine l
  | none => 0

/-- aggregator.py line 73: `re.match(r'^[A-Za-z0-9]{5,15}$', candidate)`
together with the `not candidate.startswith("Size:")` guard. -/
def isSkuLine (s : Str) : Bool :=
  decide (5 ≤ s.length) && decide (s.length ≤ 15) && s.all isAlnumC &&
    !(("Size:".toList).isPrefixOf s)

/-- Python list indexing guarded by `current_idx >= 0`: `none` for a
negative or out-of-range cursor. -/
def igetLine (lines : List Str) (j : Int) : Option Str :=
  if j < 0 then none else lines.get? j.toNat

/-- One extracted item record of the sequence-marker-anchored extractor. -/
structure Item where
  name : Str
  sku : Str
  size : Str
deriving DecidableEq, Repr

/-- aggregator.py lines 91-101: walk up to `fuel` (= 2) lines backward from
cursor `cur`, prepending each collected line, stopping at a missing line,
an empty line, the `QUANTITY` or `ITEMS` headers, or a previous sequence
marker. -/
def nameWalk (lines : List Str) : Nat → Int → List Str → List Str
  | 0, _, acc => acc
  | fuel + 1, cur, acc =>
    match igetLine lines cur with
    | none => acc
    | some l =>
      let c := stripChars l
      if c = [] then acc
      else if c = "QUANTITY".toList then acc
      else if isSeqMarkerLine c then acc
      else if c = "ITEMS".toList then acc
      else nameWalk lines fuel (cur - 1) (c :: acc)

/-- aggregator.py lines 64-110: the backward parse triggered at the
sequence-marker line at index `i`: optional SKU line at `i-1`, optional
size line above it, then up to two name lines; the record is dropped when
the collected name is empty. -/
def parseBlock (lines : List Str) (i : Nat) : Option Item :=
  let c0 : Int := (i : Int) - 1
  let step1 :=
    match igetLine lines c0 with
    | some l =>
      let cand := stripChars l
      if isSkuLine cand then (cand, c0 - 1) else ("NO SKU".toList, c0)
    | none => ("NO SKU".toList, c0)
  let step2 :=
    match igetLine lines step1.2 with
    | some l =>
      let cand := stripChars l
      if ("Size:".toList).isPrefixOf cand then (cand, step1.2 - 1)
      else (([] : Str), step1.2)
    | none => (([] : Str), step1.2)
  let nameLines := nameWalk lines 2 step2.2 []
  let nm := List.intercalate [' '] nameLines
  if nm.isEmpty then none else some ⟨nm, step1.1, step2.1⟩

/-- aggregator.py lines 43-110: one page's records, scanning every line and
firing the backward parse at each sequence-marker line. -/
def extractItemsPage (lines : List Str) : List Item :=
  (List.range lines.length).filterMap (fun i =>
    if isSeqMarkerLine ((lines.get? i).getD []) then parseBlock lines i else none)

/-- aggregator.py `extract_items_from_pdf`: concatenation of the per-page
records, each page's text split on newlines. -/
def extractItemsFromPdf (pages : List Str) : List Item :=
  (pages.map (fun t => extractItemsPage (splitNl t))).flatten

/-! ## aggregator.py: aggregation and rendering -/

/-- Grouping key `(name, sku, size)` (aggregator.py line 129). -/
abbrev Key := Str × Str × Str

/-- Key of an item record. -/
def keyOf (it : Item) : Key := (it.name, it.sku, it.size)

/-- Number of occurrences of a key in a list of keys. -/
def countKey (k : Key) : List Key → Nat
  | [] => 0
  | k' :: tl => (if k' = k then 1 else 0) + countKey k tl

/-- `counts[key] = counts.get(key, 0) + 1` on an insertion-ordered
association list, the model of a Python dict update. -/
def bump : List (Key × Nat) → Key → List (Key × Nat)
  | [], k => [(k, 1)]
  | (k', c) :: rest, k =>
    if k' = k then (k', c + 1) :: rest else (k', c) :: bump rest k

/-- The counting dict built by aggregator.py lines 124-130. -/
def countsOf (items : List Item) : List (Key × Nat) :=
  items.foldl (fun acc it => bump acc (keyOf it)) []

/-- Association-list lookup on the counting dict. -/
def lookupCount : List (Key × Nat) → Key → Option Nat
  | [], _ => none
  | (k', c) :: rest, k => if k' = k then some c else lookupCount rest k

/-- The location table: SKU to either a string value or `none`, the model
of a pandas `NaN` cell. -/
abbrev Db := List (Str × Option Str)

/-- Dict lookup in the location table: `none` models an absent key. -/
def lookupDb : Db → Str → Option (Option Str)
  | [], _ => none
  | (k, v) :: rest, sku => if k = sku then some v else lookupDb rest sku

/-- aggregator.py lines 136-140: the resolved location string, with the
`"No Location"` sentinel for an absent key, a `NaN` value, or a value that
is empty after stripping. -/
def lookupLocation (db : Db) (sku : Str) : Str :=
  match lookupDb db sku with
  | some (some v) =>
    if stripChars v = [] then "No Location".toList else stripChars v
  | some none => "No Location".toList
  | none => "No Location".toList

/-- Code-point lexicographic comparison of strings, as Python's `<=` on
`str` compares them. -/
def strLeB : Str → Str → Bool
  | [], _ => true
  | _ :: _, [] => false
  | a :: as, b :: bs => if a < b then true else if b < a then false else strLeB as bs

/-- The propositional form of `strLeB`. -/
def StrLe (a b : Str) : Prop := strLeB a b = true

instance : DecidableRel StrLe :=
  fun a b => inferInstanceAs (Decidable (strLeB a b = true))

/-- aggregator.py lines 146-150: the rendered summary line
`<name>[ (<size>)] (<sku>) (<location>) x<count>`. -/
def renderGroup (db : Db) (g : Key × Nat) : Str :=
  let name := g.1.1
  let sku := g.1.2.1
  let size := g.1.2.2
  let location := lookupLocation db sku
  let displayName := if size = [] then name else name ++ " (".toList ++ size ++ ")".toList
  displayName ++ " (".toList ++ sku ++ ") (".toList ++ location ++ ") x".toList ++
    (Nat.repr g.2).toList

/-- The unsorted summary lines, one per group in dict insertion order. -/
def summaryLines (items : List Item) (db : Db) : List Str :=
  (countsOf items).map (renderGroup db)

/-- aggregator.py `aggregate_items`: group, count, resolve locations,
render, and sort the rendered lines lexicographically (`summary_lines.sort()`). -/
def aggregateItems (items : List Item) (db : Db) : List Str :=
  List.insertionSort StrLe (summaryLines items db)

/-! ## stamper.py: size-marker-anchored extraction -/

/-- An axis-aligned rectangle returned by the external spatial text
search.  Coordinates are opaque to the extraction logic. -/
structure Rect where
  x0 : Int
  y0 : Int
  x1 : Int
  y1 : Int
deriving DecidableEq, Repr

/-- One record of the size-marker-anchored extractor: SKU, optional
bounding rectangle, and page index. -/
structure StampItem where
  sku : Str
  rect : Option Rect
  pageIndex : Nat
deriving DecidableEq, Repr

/-- Python's `text.find(pat, start)`: the lowest index at or after `start`
where `pat` occurs, `none` when absent. -/
def pyFind (text pat : Str) (start : Nat) : Option Nat :=
  (List.range text.length).find? (fun p =>
    decide (start ≤ p) && pat.isPrefixOf (text.drop p))

/-- stamper.py lines 46-47: `re.search(r'([A-Za-z0-9]{5,15})', s)`,
leftmost position with at least five consecutive alphanumeric characters;
the greedy quantifier takes at most fifteen of the run. -/
def skuScan (s : Str) : Option Str :=
  (List.range s.length).findSome? (fun p =>
    let r := (s.drop p).takeWhile isAlnumC
    if 5 ≤ r.length then some (r.take 15) else none)

/-- stamper.py lines 44-78: the record (or absence of one) produced for the
`Size:` occurrence at index `si`: a `"00000"`-sentinel record with no
rectangle when no SKU-shaped substring follows; a record with the SKU and
the first rectangle when the spatial search returns one; otherwise a
record only when the extracted SKU is literally `"00000"`. -/
def recordAt (searchFor : Str → List Rect) (text : Str) (pi si : Nat) :
    Option StampItem :=
  match skuScan (text.drop si) with
  | none => some ⟨"00000".toList, none, pi⟩
  | some sku =>
    match searchFor sku with
    | r :: _ => some ⟨sku, some r, pi⟩
    | [] => if sku = "00000".toList then some ⟨"00000".toList, none, pi⟩ else none

/-- The positions visited by the stamper's `while True` loop: each `Size:`
occurrence found from the previous occurrence plus one. -/
def sizeOccsF : Nat → Str → Nat → List Nat
  | 0, _, _ => []
  | fuel + 1, text, pos =>
    match pyFind text ("Size:".toList) pos with
    | none => []
    | some si => si :: sizeOccsF fuel text (si + 1)

/-- All `Size:` occurrences of a page, with fuel sufficient for the whole
text (`text.length + 1` iterations always suffice, see the claim C10
theorem). -/
def sizeOccurrences (text : Str) : List Nat :=
  sizeOccsF (text.length + 1) text 0

/-- stamper.py lines 30-78: the scanning loop, fuelled; `none` models fuel
exhaustion and never occurs for sufficient fuel. -/
def stampLoopF (searchFor : Str → List Rect) (text : Str) (pi : Nat) :
    Nat → Nat → Option (List StampItem)
  | 0, _ => none
  | fuel + 1, pos =>
    match pyFind text ("Size:".toList) pos with
    | none => some []
    | some si =>
      match stampLoopF searchFor text pi fuel (si + 1) with
      | none => none
      | some rest =>
        match recordAt searchFor text pi si with
        | some it => some (it :: rest)
        | none => some rest

/-- One page of `extract_all_items`. -/
def extractAllItemsPage (searchFor : Str → List Rect) (text : Str) (pi : Nat) :
    List StampItem :=
  (stampLoopF searchFor text pi (text.length + 1) 0).getD []

/-- stamper.py `extract_all_items` over the whole document; the spatial
search oracle is per page. -/
def extractAllItems (searchFor : Nat → Str → List Rect) (pages : List Str) :
    List StampItem :=
  ((enumF pages).map (fun pr => extractAllItemsPage (searchFor pr.1) pr.2 pr.1)).flatten

/-! ## preorder_marker.py -/

/-- Attempt of the regex `pre[- ]?order` (case-insensitive) at position `p`:
greedy optional separator, falling back to the empty alternative.  On
success returns the matched substring of the original text. -/
def preorderMatchAt (text : Str) (p : Nat) : Option Str :=
  let s := text.drop p
  if ("pre".toList).isPrefixOf (s.map Char.toLower) then
    let s2 := s.drop 3
    match s2 with
    | c :: s3 =>
      if (c = '-' || c = ' ') && ("order".toList).isPrefixOf (s3.map Char.toLower) then
        some (s.take 9)
      else if ("order".toList).isPrefixOf (s2.map Char.toLower) then
        some (s.take 8)
      else none
    | [] => none
  else none

/-- Leftmost match of the pre-order pattern at or after `pos`. -/
def preorderFind (text : Str) (pos : Nat) : Option (Nat × Str) :=
  (List.range text.length).findSome? (fun q =>
    if pos ≤ q then (preorderMatchAt text q).map (fun m => (q, m)) else none)

/-- `re.finditer`: non-overlapping matches, each search resuming at the end
of the previous match. -/
def preorderMatchesF : Nat → Str → Nat → List Str
  | 0, _, _ => []
  | fuel + 1, text, pos =>
    match preorderFind text pos with
    | none => []
    | some (q, m) => m :: preorderMatchesF fuel text (q + m.length)

/-- All pre-order matches of one page's text (preorder_marker.py line 39). -/
def preorderMatches (text : Str) : List Str :=
  preorderMatchesF (text.length + 1) text 0

/-- preorder_marker.py lines 38-75: `changes_made`, which is set exactly
when some match's spatial search returns at least one rectangle, and which
alone decides whether the document is saved and the file replaced. -/
def markPreordersWrites (searchFor : Nat → Str → List Rect) (pages : List Str) :
    Bool :=
  (enumF pages).any (fun pr =>
    (preorderMatches pr.2).any (fun m => !(searchFor pr.1 m).isEmpty))

/-! ## main.py and aggregator.process_pdf orchestration -/

/-- aggregator.py `load_database`: a missing file or a parse failure is
logged and yields an empty table; otherwise the parsed table. -/
def loadDatabase (fileExists : Bool) (parsed : Option Db) : Db :=
  if !fileExists then [] else (parsed.getD [])

/-- aggregator.py `process_pdf`: `none` when no items are extracted (the
function returns without touching the file); otherwise the summary lines
of the page that is generated, prepended, and saved over the document. -/
def processPdfSummary (fileExists : Bool) (parsed : Option Db) (pages : List Str) :
    Option (List Str) :=
  let db := loadDatabase fileExists parsed
  let items := extractItemsFromPdf pages
  if items.isEmpty then none else some (aggregateItems items db)

/-- A document mutation performed by the pipeline. -/
inductive Action where
  | sortWrite (perm : List Nat)
  | markWrite
  | stampWrite (sku : Str)
  | summaryWrite (lines : List Str)
deriving DecidableEq, Repr

/-- main.py lines 91-127: the stamping loop.  A stamp is written only when
the SKU is present in the table, its location value is neither `NaN` nor
the empty string (main.py does not strip here), and the record carries a
rectangle. -/
def stampActions (db : Db) (items : List StampItem) : List Action :=
  items.filterMap (fun it =>
    match lookupDb db it.sku with
    | none => none
    | some none => none
    | some (some v) =>
      if v = [] then none
      else
        match it.rect with
        | none => none
        | some _ => some (.stampWrite it.sku))

/-- Page list after the sorter's reorder has been applied. -/
def pagesAfterSort (pages : List Str) : List Str :=
  match sortPdfPlan pages with
  | some idxs => idxs.filterMap (fun i => pages.get? i)
  | none => pages

/-- main.py `main`: the sequence of document mutations of one run.  The
database-existence check (line 51) and the CSV parse (lines 57-62) call
`sys.exit(1)` before the PDF is even selected, so a run with a missing or
unreadable database performs no mutation at all.  The pre-order strike and
the location stamps alter no extracted text line, so later steps read the
sorted page texts. -/
def mainTrace (dbFileExists : Bool) (dbParsed : Option Db)
    (pdf : Option (List Str)) (searchFor : Nat → Str → List Rect) : List Action :=
  if !dbFileExists then []
  else
    match dbParsed with
    | none => []
    | some db =>
      match pdf with
      | none => []
      | some pages =>
        let sortStep : List Action :=
          match sortPdfPlan pages with
          | some perm => [.sortWrite perm]
          | none => []
        let sorted := pagesAfterSort pages
        let markStep : List Action :=
          if markPreordersWrites searchFor sorted then [.markWrite] else []
        let stampItems := extractAllItems searchFor sorted
        if stampItems.isEmpty then sortStep ++ markStep
        else
          let stamps := stampActions db stampItems
          let summaryStep : List Action :=
            match processPdfSummary dbFileExists dbParsed sorted with
            | some lines => [.summaryWrite lines]
            | none => []
          sortStep ++ markStep ++ stamps ++ summaryStep

/-! ## Auxiliary predicates and concrete example inputs -/

/-- One of the name-walk stop conditions of aggregator.py lines 93-98, on
the optional line above the name: absent, blank after stripping, the
`QUANTITY` or `ITEMS` headers, or a previous sequence marker. -/
def nameStop (o : Option Str) : Prop :=
  o = none ∨ ∃ l, o = some l ∧ (stripChars l = [] ∨ stripChars l = "QUANTITY".toList ∨
    isSeqMarkerLine (stripChars l) = true ∨ stripChars l = "ITEMS".toList)

/-- Item record of the spec's end-to-end aggregation example. -/
def shirtItem : Item := ⟨"Shirt".toList, "ABC1234".toList, "Size: M".toList⟩

/-- Item record with an empty size, for the size-suffix-omitted case. -/
def gadgetItem : Item := ⟨"Gadget".toList, "SKU99999".toList, []⟩

/-- Page text with a `7 of 9` fragment embedded mid-line: no line consists
solely of `<int> of <int>`. -/
def c1Text : Str := "total 7 of 9 widgets".toList

/-- Page lines whose item block is preceded by an ordinary text line. -/
def c4Lines : List Str :=
  ["Foo", "Widget A", "Size: L", "SKU12345", "1 of 1"].map String.toList

/-- Page lines whose item block is preceded by the `ITEMS` header. -/
def c4GoodLines : List Str :=
  ["ITEMS", "Widget A", "Size: L", "SKU12345", "1 of 1"].map String.toList

/-- A one-page document containing a complete item block. -/
def c5Pages : List Str := ["Widget A\nSize: L\nSKU12345\n1 of 1".toList]

instance : IsTotal Str StrLe where
  total := by
    intro a
    induction a with
    | nil => exact fun b => Or.inl rfl
    | cons x xs ih =>
      intro b
      cases b with
      | nil => exact Or.inr rfl
      | cons y ys =>
        rcases lt_trichotomy x y with h | h | h
        · exact Or.inl (by simp [StrLe, strLeB, h])
        · subst h
          rcases ih ys with h2 | h2
          · exact Or.inl (by simp only [StrLe, strLeB, lt_irrefl, if_false]; exact h2)
          · exact Or.inr (by simp only [StrLe, strLeB, lt_irrefl, if_false]; exact h2)
        · exact Or.inr (by simp [StrLe, strLeB, h])

instance : IsTrans Str StrLe where
  trans := by
    intro a
    induction a with
    | nil => intro b c _ _; rfl
    | cons x xs ih =>
      intro b c hab hbc
      cases b with
      | nil => exact absurd hab (by simp [StrLe, strLeB])
      | cons y ys =>
        cases c with
        | nil => exact absurd hbc (by simp [StrLe, strLeB])
        | cons z zs =>
          simp only [StrLe, strLeB] at hab hbc ⊢
          by_cases hxy : x < y
          · simp only [hxy, if_true] at hab
            by_cases hyz : y < z
            · simp [lt_trans hxy hyz]
            · simp only [hyz, if_false] at hbc
              by_cases hzy : z < y
              · simp [hzy] at hbc
              · have hyez : y = z := le_antisymm (not_lt.1 hzy) (not_lt.1 hyz)
                subst hyez
                simp [hxy]
          · simp only [hxy, if_false] at hab
            by_cases hyx : y < x
            · simp [hyx] at hab
            · simp only [hyx, if_false] at hab
              have hxey : x = y := le_antisymm (not_lt.1 hyx) (not_lt.1 hxy)
              subst hxey
              by_cases hyz : x < z
              · simp [hyz]
              · simp only [hyz, if_false] at hbc ⊢
                by_cases hzy : z < x
                · simp [hzy] at hbc
                · simp only [hzy, if_false] at hbc ⊢
                  exact ih ys zs hab hbc

instance : IsAntisymm Str StrLe where
  antisymm := by
    intro a
    induction a with
    | nil =>
      intro b _ hba
      cases b with
      | nil => rfl
      | cons y ys => exact absurd hba (by simp [StrLe, strLeB])
    | cons x xs ih =>
      intro b hab hba
      cases b with
      | nil => exact absurd hab (by simp [StrLe, strLeB])
      | cons y ys =>
        simp only [StrLe, strLeB] at hab hba
        by_cases hxy : x < y
        · simp [asymm hxy, hxy] at hba
        · by_cases hyx : y < x
          · simp [hxy, hyx] at hab
          · have hxey : x = y := le_antisymm (not_lt.1 hyx) (not_lt.1 hxy)
            subst hxey
            simp only [lt_irrefl, if_false] at hab hba
            rw [ih ys hab hba]

/-! # Helper lemmas -/

theorem pyFind_bounds {text pat : Str} {start i : Nat}
    (h : pyFind text pat start = some i) :
    start ≤ i ∧ i + pat.length ≤ text.length := by
  unfold pyFind at h
  have hp := List.find?_some h
  have hm := List.mem_of_find?_eq_some h
  simp only [Bool.and_eq_true, decide_eq_true_eq] at hp
  obtain ⟨h1, h2⟩ := hp
  have h3 := (List.isPrefixOf_iff_prefix.mp h2).length_le
  rw [List.length_drop] at h3
  have h4 := List.mem_range.mp hm
  exact ⟨h1, by omega⟩

theorem stampLoopF_total (searchFor : Str → List Rect) (text : Str) (pi : Nat) :
    ∀ fuel pos, text.length - pos < fuel →
      (stampLoopF searchFor text pi fuel pos).isSome = true := by
  intro fuel
  induction fuel with
  | zero => intro pos h0; omega
  | succ f ih =>
    intro pos hpos
    rw [stampLoopF]
    cases hf : pyFind text ("Size:".toList) pos with
    | none => rfl
    | some si =>
      have hb := pyFind_bounds hf
      have h5 : ("Size:".toList).length = 5 := rfl
      rw [h5] at hb
      have hrec := ih (si + 1) (by omega)
      dsimp only
      cases hr : stampLoopF searchFor text pi f (si + 1) with
      | none => rw [hr] at hrec; simp at hrec
      | some rest => cases recordAt searchFor text pi si <;> rfl

theorem stampLoopF_filterMap (searchFor : Str → List Rect) (text : Str) (pi : Nat) :
    ∀ fuel pos, text.length - pos < fuel →
      stampLoopF searchFor text pi fuel pos =
        some ((sizeOccsF fuel text pos).filterMap (recordAt searchFor text pi)) := by
  intro fuel
  induction fuel with
  | zero => intro pos h0; omega
  | succ f ih =>
    intro pos hpos
    rw [stampLoopF, sizeOccsF]
    cases hf : pyFind text ("Size:".toList) pos with
    | none => rfl
    | some si =>
      have hb := pyFind_bounds hf
      have h5 : ("Size:".toList).length = 5 := rfl
      rw [h5] at hb
      dsimp only
      rw [ih (si + 1) (by omega), List.filterMap_cons]
      cases recordAt searchFor text pi si <;> rfl

theorem takeWhile_all_append {p : Char → Bool} (l1 : Str) (y : Char) (t : Str)
    (h1 : ∀ x ∈ l1, p x = true) (hy : p y = false) :
    (l1 ++ y :: t).takeWhile p = l1 ∧ (l1 ++ y :: t).dropWhile p = y :: t := by
  induction l1 with
  | nil => simp [List.takeWhile_cons, List.dropWhile_cons, hy]
  | cons a as ih =>
    have ha : p a = true := h1 a (by simp)
    have ih2 := ih (fun x hx => h1 x (by simp [hx]))
    simp [List.takeWhile_cons, List.dropWhile_cons, ha, ih2.1, ih2.2]

theorem matchSeqAt_eq_some_iff {text : Str} {p a : Nat} :
    matchSeqAt text p = some a ↔ SeqMatchAt text p a := by
  constructor
  · intro h
    unfold matchSeqAt at h
    by_cases h1 : ((text.drop p).takeWhile isDigitC).isEmpty = true
    · rw [if_pos h1] at h; exact absurd h (by simp)
    · rw [if_neg h1] at h
      by_cases h2 : (" of ".toList).isPrefixOf ((text.drop p).dropWhile isDigitC) = true
      · rw [if_pos h2] at h
        obtain ⟨t, ht⟩ := List.isPrefixOf_iff_prefix.mp h2
        have hdrop4 : ((text.drop p).dropWhile isDigitC).drop 4 = t := by
          rw [← ht]
          exact List.drop_left (" of ".toList) t
        cases hd : ((text.drop p).dropWhile isDigitC).drop 4 with
        | nil => rw [hd] at h; exact absurd h (by simp)
        | cons c rest =>
          rw [hd] at h
          dsimp only at h
          by_cases hdig : isDigitC c = true
          · rw [if_pos hdig] at h
            refine ⟨(text.drop p).takeWhile isDigitC, c, rest, ?_, ?_, hdig, ?_,
              (Option.some.inj h).symm⟩
            · intro hnil; rw [hnil] at h1; exact h1 rfl
            · exact fun x hx => List.mem_takeWhile_imp hx
            · rw [hd] at hdrop4
              conv_lhs => rw [← List.takeWhile_append_dropWhile (p := isDigitC)
                (l := text.drop p)]
              rw [← ht, hdrop4, List.append_assoc]
          · rw [if_neg hdig] at h; exact absurd h (by simp)
      · rw [if_neg h2] at h; exact absurd h (by simp)
  · rintro ⟨d1, c, rest, hne, hdig, hc, hdecomp, ha⟩
    have hof : " of ".toList = [' ', 'o', 'f', ' '] := rfl
    have hdecomp' : text.drop p = d1 ++ ' ' :: 'o' :: 'f' :: ' ' :: c :: rest := by
      rw [hdecomp, hof, List.append_assoc]
      rfl
    obtain ⟨htake, hdrop⟩ :=
      takeWhile_all_append (p := isDigitC) d1 ' ' ('o' :: 'f' :: ' ' :: c :: rest) hdig rfl
    have hni : d1.isEmpty = false := by
      cases d1 with
      | nil => exact absurd rfl hne
      | cons _ _ => rfl
    have hpre : (" of ".toList).isPrefixOf (' ' :: 'o' :: 'f' :: ' ' :: c :: rest) = true :=
      List.isPrefixOf_iff_prefix.mpr ⟨c :: rest, rfl⟩
    unfold matchSeqAt
    rw [hdecomp']
    dsimp only
    rw [htake, hdrop, hni, hpre]
    simp [hc, ha]

theorem findSome?_first {β : Type} {f : Nat → Option β} {b : β} :
    ∀ (l : List Nat), l.Pairwise (· < ·) → ∀ {q : Nat}, q ∈ l → f q = some b →
      (∀ r, r < q → f r = none) → l.findSome? f = some b := by
  intro l
  induction l with
  | nil => intro _ q hq; simp at hq
  | cons h t ih =>
    intro hp q hq hf hmin
    rw [List.findSome?_cons]
    rcases List.mem_cons.mp hq with rfl | hqt
    · rw [hf]
    · have hlt : h < q := (List.pairwise_cons.mp hp).1 q hqt
      rw [hmin h hlt]
      exact ih (List.pairwise_cons.mp hp).2 hqt hf hmin

theorem igetLine_ofNat (lines : List Str) (n : Nat) :
    igetLine lines (n : Int) = lines.get? n := by
  have hι : ((n : Int)).toNat = n := by omega
  unfold igetLine
  rw [if_neg (by omega), hι]

theorem nameWalk_zero (lines : List Str) (cur : Int) (acc : List Str) :
    nameWalk lines 0 cur acc = acc := rfl

theorem nameWalk_succ (lines : List Str) (fuel : Nat) (cur : Int) (acc : List Str) :
    nameWalk lines (fuel + 1) cur acc =
      match igetLine lines cur with
      | none => acc
      | some l =>
        let c := stripChars l
        if c = [] then acc
        else if c = "QUANTITY".toList then acc
        else if isSeqMarkerLine c then acc
        else if c = "ITEMS".toList then acc
        else nameWalk lines fuel (cur - 1) (c :: acc) := rfl

theorem lookupCount_bump_self (l : List (Key × Nat)) (k : Key) :
    lookupCount (bump l k) k = some ((lookupCount l k).getD 0 + 1) := by
  induction l with
  | nil => simp [bump, lookupCount]
  | cons hd tl ih =>
    obtain ⟨k', c⟩ := hd
    by_cases h : k' = k
    · subst h
      simp [bump, lookupCount]
    · simp [bump, lookupCount, h, ih]

theorem lookupCount_bump_ne (l : List (Key × Nat)) (k q : Key) (h : q ≠ k) :
    lookupCount (bump l k) q = lookupCount l q := by
  induction l with
  | nil => simp [bump, lookupCount, Ne.symm h]
  | cons hd tl ih =>
    obtain ⟨k', c⟩ := hd
    by_cases h2 : k' = k
    · subst h2
      simp [bump, lookupCount, Ne.symm h]
    · simp only [bump, if_neg h2]
      by_cases h3 : k' = q
      · subst h3; simp [lookupCount]
      · simp [lookupCount, h3, ih]

theorem lookupCount_foldl_bump (items : List Item) :
    ∀ (acc : List (Key × Nat)) (k : Key),
      lookupCount (items.foldl (fun a it => bump a (keyOf it)) acc) k =
        match lookupCount acc k with
        | some c => some (c + countKey k (items.map keyOf))
        | none =>
          if countKey k (items.map keyOf) = 0 then none
          else some (countKey k (items.map keyOf)) := by
  induction items with
  | nil =>
    intro acc k
    cases h : lookupCount acc k <;> simp [h, countKey]
  | cons it tl ih =>
    intro acc k
    rw [List.foldl_cons]
    rw [ih (bump acc (keyOf it)) k]
    by_cases hk : keyOf it = k
    · subst hk
      rw [lookupCount_bump_self]
      have hcnt : countKey (keyOf it) ((it :: tl).map keyOf) =
          countKey (keyOf it) (tl.map keyOf) + 1 := by
        simp [countKey]
        omega
      rw [hcnt]
      cases h : lookupCount acc (keyOf it) <;> simp [h, Option.getD] <;> omega
    · rw [lookupCount_bump_ne acc (keyOf it) k (fun he => hk he.symm)]
      have hcnt : countKey k ((it :: tl).map keyOf) = countKey k (tl.map keyOf) := by
        simp [countKey, hk]
      rw [hcnt]

theorem lookupCount_countsOf (items : List Item) (k : Key) :
    lookupCount (countsOf items) k =
      if countKey k (items.map keyOf) = 0 then none
      else some (countKey k (items.map keyOf)) := by
  unfold countsOf
  rw [lookupCount_foldl_bump items [] k]
  rfl

theorem bump_map_fst (l : List (Key × Nat)) (k : Key) :
    (bump l k).map Prod.fst =
      if k ∈ l.map Prod.fst then l.map Prod.fst else l.map Prod.fst ++ [k] := by
  induction l with
  | nil => simp [bump]
  | cons hd tl ih =>
    obtain ⟨k', c⟩ := hd
    by_cases h : k' = k
    · subst h
      simp [bump]
    · simp only [bump, if_neg h, List.map_cons]
      rw [ih]
      by_cases hm : k ∈ tl.map Prod.fst
      · simp [hm, Ne.symm h]
      · simp [hm, Ne.symm h]

theorem countsOf_keys_nodup (items : List Item) :
    ((countsOf items).map Prod.fst).Nodup := by
  unfold countsOf
  suffices h : ∀ (acc : List (Key × Nat)), (acc.map Prod.fst).Nodup →
      ((items.foldl (fun a it => bump a (keyOf it)) acc).map Prod.fst).Nodup by
    exact h [] (by simp)
  induction items with
  | nil => exact fun acc hacc => hacc
  | cons it tl ih =>
    intro acc hacc
    rw [List.foldl_cons]
    apply ih
    rw [bump_map_fst]
    by_cases hm : keyOf it ∈ acc.map Prod.fst
    · simpa [hm] using hacc
    · simp only [hm, if_false]
      rw [List.nodup_append]
      exact ⟨hacc, List.nodup_singleton _, by simpa [List.disjoint_cons_right] using hm⟩

theorem lookupCount_eq_some_iff_mem {l : List (Key × Nat)}
    (hl : (l.map Prod.fst).Nodup) (k : Key) (c : Nat) :
    lookupCount l k = some c ↔ (k, c) ∈ l := by
  induction l with
  | nil => simp [lookupCount]
  | cons hd tl ih =>
    obtain ⟨k', c'⟩ := hd
    rw [List.map_cons, List.nodup_cons] at hl
    by_cases h : k' = k
    · subst h
      rw [show lookupCount ((k', c') :: tl) k' = some c' from by simp [lookupCount]]
      simp only [List.mem_cons, Option.some.injEq, Prod.mk.injEq, true_and]
      constructor
      · intro hcc
        exact Or.inl hcc.symm
      · rintro (hcc | hmem)
        · exact hcc.symm
        · exact absurd (List.mem_map_of_mem Prod.fst hmem) hl.1
    · rw [show lookupCount ((k', c') :: tl) k = lookupCount tl k from by
        simp [lookupCount, h]]
      rw [ih hl.2]
      simp only [List.mem_cons, Prod.mk.injEq]
      constructor
      · exact fun hmem => Or.inr hmem
      · rintro (⟨hk, _⟩ | hmem)
        · exact absurd hk.symm h
        · exact hmem

theorem countKey_perm {l₁ l₂ : List Key} (h : l₁.Perm l₂) (k : Key) :
    countKey k l₁ = countKey k l₂ := by
  induction h with
  | nil => rfl
  | cons x _ ih => simp [countKey, ih]
  | swap x y l => simp only [countKey]; omega
  | trans _ _ ih₁ ih₂ => exact ih₁.trans ih₂

theorem countsOf_perm {items₁ items₂ : List Item} (h : items₁.Perm items₂) :
    (countsOf items₁).Perm (countsOf items₂) := by
  have nd₁k := countsOf_keys_nodup items₁
  have nd₂k := countsOf_keys_nodup items₂
  rw [List.perm_ext_iff_of_nodup (List.Nodup.of_map Prod.fst nd₁k)
    (List.Nodup.of_map Prod.fst nd₂k)]
  rintro ⟨k, c⟩
  rw [← lookupCount_eq_some_iff_mem nd₁k, ← lookupCount_eq_some_iff_mem nd₂k]
  rw [lookupCount_countsOf, lookupCount_countsOf]
  have hc : countKey k (items₁.map keyOf) = countKey k (items₂.map keyOf) :=
    countKey_perm (h.map keyOf) k
  rw [hc]

/-! # Claim theorems -/

/-- Claim C1, counterexample: the sorter's sequence number is computed by
`re.search(r'(\d+) of (\d+)', text)` over the raw page text, not by the
line-anchored sequence-marker rule.  On a page whose only `N of M`
fragment sits inside a longer line, no line consists solely of
`<int> of <int>`, so the claim requires sequence number `0`, yet the code
extracts `7`. -/
theorem sorter_seq_number_line_rule_counterexample :
    seqNumOf c1Text = 7 ∧ seqNumLineSpec c1Text = 0 := by decide

/-- Claim C1 (amended): the page sort key's sequence number is the first
captured integer of the leftmost occurrence of the substring pattern
`<digits> of <digits>` anywhere in the page text - the occurrence need
not form a whole line - and `0` when no position of the text matches. -/
theorem sorter_seq_number_substring_search (text : Str) :
    ((∀ q b, ¬ SeqMatchAt text q b) → seqNumOf text = 0) ∧
    (∀ p a, SeqMatchAt text p a → (∀ q b, q < p → ¬ SeqMatchAt text q b) →
      seqNumOf text = a) := by
  constructor
  · intro h
    unfold seqNumOf seqSearch
    have hall : ∀ q ∈ List.range text.length, matchSeqAt text q = none := by
      intro q _
      cases hm : matchSeqAt text q with
      | none => rfl
      | some b => exact absurd (matchSeqAt_eq_some_iff.mp hm) (h q b)
    rw [List.findSome?_eq_none_iff.mpr hall]
    rfl
  · intro p a hm hmin
    unfold seqNumOf seqSearch
    have hp : matchSeqAt text p = some a := matchSeqAt_eq_some_iff.mpr hm
    have hplen : p < text.length := by
      obtain ⟨d1, c, rest, hne, _, _, hdecomp, _⟩ := hm
      by_contra hge
      push_neg at hge
      rw [List.drop_eq_nil_of_le hge] at hdecomp
      cases d1 with
      | nil => exact hne rfl
      | cons hd tl => exact absurd hdecomp.symm (by simp)
    rw [findSome?_first (List.range text.length) (List.pairwise_lt_range text.length)
      (List.mem_range.mpr hplen) hp ?min]
    · rfl
    case min =>
      intro r hr
      cases hmr : matchSeqAt text r with
      | none => rfl
      | some b => exact absurd (matchSeqAt_eq_some_iff.mp hmr) (hmin r b hr)

/-- Witness for the amended claim C1 theorem at the page text `1 of 2`. -/
theorem sorter_seq_number_substring_search_witness :
    seqNumOf ("1 of 2".toList) = 1 := by
  apply (sorter_seq_number_substring_search ("1 of 2".toList)).2 0 1
  · exact ⟨['1'], '2', [], by decide, by decide, by decide, by decide, by decide⟩
  · intro q b hq
    exact absurd hq (by omega)

/-- Claim C2, counterexample: a page with exactly one `Size:` occurrence
for which the SKU regex finds `ABCDE` but the spatial search returns no
rectangle produces zero records, not one. -/
theorem stamper_size_occurrence_zero_records :
    sizeOccurrences ("Size:ABCDE".toList) = [0] ∧
    extractAllItemsPage (fun _ => []) ("Size:ABCDE".toList) 0 = [] := by decide

/-- Claim C2 (amended): each `Size:` occurrence produces at most one
record, as computed by `recordAt`: exactly one sentinel-SKU record with no
rectangle when no SKU-shaped substring follows the marker; exactly one
record carrying the SKU and the first returned rectangle when the spatial
search succeeds; and no record at all when a SKU is found but the spatial
search returns no rectangles (unless the extracted SKU is literally
`00000`, which is re-emitted as a sentinel). -/
theorem stamper_records_per_size_marker (searchFor : Str → List Rect)
    (text : Str) (pi : Nat) :
    extractAllItemsPage searchFor text pi =
      (sizeOccurrences text).filterMap (recordAt searchFor text pi) ∧
    ∀ si, skuScan (text.drop si) = none →
      recordAt searchFor text pi si = some ⟨"00000".toList, none, pi⟩ := by
  constructor
  · unfold extractAllItemsPage sizeOccurrences
    rw [stampLoopF_filterMap searchFor text pi (text.length + 1) 0 (by omega)]
    rfl
  · intro si hsi
    unfold recordAt
    rw [hsi]

/-- Witness for the amended claim C2 theorem: on a page consisting only of
the marker itself, no SKU-shaped substring follows, and the sole occurrence
yields the sentinel record. -/
theorem stamper_records_per_size_marker_witness :
    recordAt (fun _ => []) ("Size:".toList) 0 0 =
      some ⟨"00000".toList, none, 0⟩ :=
  (stamper_records_per_size_marker (fun _ => []) ("Size:".toList) 0).2 0 (by decide)

/-- Claim C3: when the computed page permutation is the identity, neither
the packing-slip sorter nor the shipping-label sorter produces a write
plan: both return before any save or file replacement. -/
theorem sorter_identity_permutation_no_write (pages labelPages : List Str)
    (h₁ : sortedIndices pages = List.range (sortedIndices pages).length)
    (h₂ : labelSortedIndices labelPages =
      List.range (labelSortedIndices labelPages).length) :
    sortPdfPlan pages = none ∧ labelSortPlan labelPages = none := by
  constructor
  · unfold sortPdfPlan
    dsimp only
    rw [if_pos h₁]
  · unfold labelSortPlan
    dsimp only
    rw [if_pos h₂]

/-- Witness for the claim C3 theorem on concrete one-page documents. -/
theorem sorter_identity_permutation_no_write_witness :
    sortPdfPlan ["a".toList] = none ∧ labelSortPlan ["b".toList] = none :=
  sorter_identity_permutation_no_write _ _ (by decide) (by decide)

/-- Claim C4, counterexample: when the line above `Widget A` is ordinary
text (`Foo`), the two-line name walk absorbs it, so the emitted record's
name is `Foo Widget A`, not `Widget A` - the claim's record is not
emitted even though the three lines immediately preceding the boundary are
exactly `Widget A`, `Size: L`, `SKU12345`. -/
theorem aggregator_extract_widget_counterexample :
    extractItemsPage c4Lines =
      [⟨"Foo Widget A".toList, "SKU12345".toList, "Size: L".toList⟩] ∧
    (⟨"Widget A".toList, "SKU12345".toList, "Size: L".toList⟩ : Item) ∉
      extractItemsPage c4Lines := by decide

/-- Claim C4 (amended): if the boundary line at index `i` matches the
sequence-marker rule and the three preceding lines are `Widget A`,
`Size: L`, `SKU12345`, and additionally the name walk stops above
`Widget A` (no line there, or a blank line, a header, or a previous
boundary), then the extractor emits exactly the record
`{name: Widget A, sku: SKU12345, size: Size: L}`. -/
theorem aggregator_extract_widget_block (lines : List Str) (i : Nat) (hi : 3 ≤ i)
    (hmark : isSeqMarkerLine ((lines.get? i).getD []) = true)
    (h1 : lines.get? (i - 1) = some ("SKU12345".toList))
    (h2 : lines.get? (i - 2) = some ("Size: L".toList))
    (h3 : lines.get? (i - 3) = some ("Widget A".toList))
    (hstop : i = 3 ∨ nameStop (igetLine lines ((i : Int) - 4))) :
    parseBlock lines i =
      some ⟨"Widget A".toList, "SKU12345".toList, "Size: L".toList⟩ ∧
    (⟨"Widget A".toList, "SKU12345".toList, "Size: L".toList⟩ : Item) ∈
      extractItemsPage lines := by
  obtain ⟨j, rfl⟩ : ∃ j, i = j + 3 := ⟨i - 3, by omega⟩
  have e1 : ((j + 3 : Nat) : Int) - 1 = ((j + 2 : Nat) : Int) := by push_cast; ring
  have e2 : ((j + 2 : Nat) : Int) - 1 = ((j + 1 : Nat) : Int) := by push_cast; ring
  have e3 : ((j + 1 : Nat) : Int) - 1 = ((j : Nat) : Int) := by push_cast; ring
  have n1 : j + 3 - 1 = j + 2 := by omega
  have n2 : j + 3 - 2 = j + 1 := by omega
  have n3 : j + 3 - 3 = j := by omega
  rw [n1] at h1
  rw [n2] at h2
  rw [n3] at h3
  have hsku : isSkuLine (stripChars ("SKU12345".toList)) = true := by decide
  have hsz : ("Size:".toList).isPrefixOf (stripChars ("Size: L".toList)) = true := by
    decide
  have hwalk : nameWalk lines 2 ((j : Nat) : Int) [] =
      [stripChars ("Widget A".toList)] := by
    show nameWalk lines (1 + 1) ((j : Nat) : Int) [] = _
    rw [nameWalk_succ, igetLine_ofNat, h3]
    dsimp only
    rw [if_neg (by decide), if_neg (by decide), if_neg (by decide),
      if_neg (by decide)]
    show nameWalk lines (0 + 1) (((j : Nat) : Int) - 1) _ = _
    rcases hstop with hj | hns
    · have hj0 : j = 0 := by omega
      subst hj0
      rw [nameWalk_succ]
      rw [show igetLine lines (((0 : Nat) : Int) - 1) = none from rfl]
    · have e4 : ((j + 3 : Nat) : Int) - 4 = ((j : Nat) : Int) - 1 := by
        push_cast; ring
      rw [e4] at hns
      rcases hns with hnone | ⟨l, hl, hcase⟩
      · rw [nameWalk_succ, hnone]
      · rw [nameWalk_succ, hl]
        dsimp only
        rcases hcase with hcs | hcs | hcs | hcs
        · rw [if_pos hcs]
        · have hne1 : ¬ stripChars l = [] := by
            intro he; rw [he] at hcs; exact absurd hcs (by decide)
          rw [if_neg hne1, if_pos hcs]
        · have hne1 : ¬ stripChars l = [] := by
            intro he; rw [he] at hcs; exact absurd hcs (by decide)
          have hne2 : ¬ stripChars l = "QUANTITY".toList := by
            intro he; rw [he] at hcs; exact absurd hcs (by decide)
          rw [if_neg hne1, if_neg hne2, if_pos hcs]
        · have hne1 : ¬ stripChars l = [] := by
            intro he; rw [he] at hcs; exact absurd hcs (by decide)
          have hne2 : ¬ stripChars l = "QUANTITY".toList := by
            intro he; rw [he] at hcs; exact absurd hcs (by decide)
          have hne3 : ¬ isSeqMarkerLine (stripChars l) = true := by
            rw [hcs]; decide
          rw [if_neg hne1, if_neg hne2, if_neg hne3, if_pos hcs]
  have hblock : parseBlock lines (j + 3) =
      some ⟨"Widget A".toList, "SKU12345".toList, "Size: L".toList⟩ := by
    unfold parseBlock
    dsimp only
    rw [e1, igetLine_ofNat, h1]
    dsimp only
    rw [if_pos hsku]
    dsimp only
    rw [e2, igetLine_ofNat, h2]
    dsimp only
    rw [if_pos hsz]
    dsimp only
    rw [e3, hwalk]
    rw [if_neg (by decide)]
    decide
  refine ⟨hblock, ?_⟩
  have hlen : j + 3 < lines.length := by
    by_contra hge
    push_neg at hge
    rw [List.get?_eq_none.mpr hge] at hmark
    exact absurd hmark (by decide)
  exact List.mem_filterMap.mpr ⟨j + 3, List.mem_range.mpr hlen, by rw [if_pos hmark, hblock]⟩

/-- Witness for the amended claim C4 theorem on a concrete page whose item
block is preceded by the `ITEMS` header. -/
theorem aggregator_extract_widget_block_witness :
    parseBlock c4GoodLines 4 =
      some ⟨"Widget A".toList, "SKU12345".toList, "Size: L".toList⟩ ∧
    (⟨"Widget A".toList, "SKU12345".toList, "Size: L".toList⟩ : Item) ∈
      extractItemsPage c4GoodLines := by
  apply aggregator_extract_widget_block c4GoodLines 4 (by omega) (by decide)
    (by decide) (by decide) (by decide)
  exact Or.inr (Or.inr ⟨"ITEMS".toList, by decide, Or.inr (Or.inr (Or.inr (by decide)))⟩)

/-- Claim C5, counterexample: the standalone aggregator entry point does
not abort when the database file is missing: `load_database` logs and
returns an empty table, and `process_pdf` still extracts, aggregates, and
overwrites the document with a summary page. -/
theorem aggregator_run_mutates_despite_missing_db :
    processPdfSummary false none c5Pages =
      some ["Widget A (Size: L) (SKU12345) (No Location) x1".toList] := by decide

/-- Claim C5 (amended): when invoked through `main.py`, a missing database
file or a CSV parse failure exits the run before the PDF is even selected,
so no document mutation of any kind occurs; only the standalone aggregator
run proceeds (and mutates) with an empty table. -/
theorem main_missing_db_aborts_before_mutation (ex : Bool) (parsed : Option Db)
    (pdf : Option (List Str)) (sf : Nat → Str → List Rect)
    (h : ex = false ∨ parsed = none) :
    mainTrace ex parsed pdf sf = [] := by
  rcases h with rfl | rfl
  · simp [mainTrace]
  · cases ex <;> simp [mainTrace]

/-- Witness for the amended claim C5 theorem at a concrete environment. -/
theorem main_missing_db_aborts_before_mutation_witness :
    mainTrace false none (some c5Pages) (fun _ _ => []) = [] :=
  main_missing_db_aborts_before_mutation false none (some c5Pages) (fun _ _ => [])
    (Or.inl rfl)

/-- Claim C6: aggregation is order-independent: permuting the extracted
record list leaves the sorted summary-line list unchanged, because the
per-key counts are permutation-invariant and the final lexicographic sort
makes the rendered multiset's order canonical. -/
theorem aggregate_items_perm_invariant (db : Db) {items₁ items₂ : List Item}
    (h : items₁.Perm items₂) :
    aggregateItems items₁ db = aggregateItems items₂ db := by
  unfold aggregateItems summaryLines
  have hperm : ((countsOf items₁).map (renderGroup db)).Perm
      ((countsOf items₂).map (renderGroup db)) :=
    (countsOf_perm h).map (renderGroup db)
  exact List.eq_of_perm_of_sorted
    ((List.perm_insertionSort StrLe _).trans
      (hperm.trans (List.perm_insertionSort StrLe _).symm))
    (List.sorted_insertionSort StrLe _)
    (List.sorted_insertionSort StrLe _)

/-- Witness for the claim C6 theorem: swapping two concrete records leaves
the aggregated output unchanged. -/
theorem aggregate_items_perm_invariant_witness :
    aggregateItems [gadgetItem, shirtItem] [] =
      aggregateItems [shirtItem, gadgetItem] [] :=
  aggregate_items_perm_invariant [] (List.Perm.swap shirtItem gadgetItem [])

/-- Claim C7: a SKU absent from the location table, a SKU mapped to a
not-a-value cell, and a SKU mapped to a value that is empty after
stripping all resolve to the fixed `No Location` sentinel;
`lookupLocation` is total, so no exception can be raised. -/
theorem aggregator_lookup_miss_sentinel (db : Db) (sku : Str)
    (h : lookupDb db sku = none ∨ lookupDb db sku = some none ∨
      ∃ v, lookupDb db sku = some (some v) ∧ stripChars v = []) :
    lookupLocation db sku = "No Location".toList := by
  unfold lookupLocation
  rcases h with h | h | ⟨v, hv, hs⟩
  · rw [h]
  · rw [h]
  · rw [hv]
    dsimp only
    rw [if_pos hs]

/-- Witness for the claim C7 theorem: a SKU whose stored location is
whitespace-only resolves to the sentinel. -/
theorem aggregator_lookup_miss_sentinel_witness :
    lookupLocation [("AAAAA".toList, some "  ".toList)] ("AAAAA".toList) =
      "No Location".toList :=
  aggregator_lookup_miss_sentinel _ _
    (Or.inr (Or.inr ⟨"  ".toList, by decide, by decide⟩))

/-- Claim C8: the aggregator's output is sorted lexicographically by the
full rendered line; a record with a size renders as
`<name> (<size>) (<sku>) (<location>) x<count>` and two identical records
collapse to a single line with `x2`; a record with an empty size omits
the size suffix. -/
theorem aggregate_output_sorted_and_formatted :
    (∀ (items : List Item) (db : Db),
      List.Sorted StrLe (aggregateItems items db)) ∧
    aggregateItems [shirtItem, shirtItem] [] =
      ["Shirt (Size: M) (ABC1234) (No Location) x2".toList] ∧
    aggregateItems [gadgetItem] [("SKU99999".toList, some " B12 ".toList)] =
      ["Gadget (SKU99999) (B12) x1".toList] :=
  ⟨fun items db => List.sorted_insertionSort StrLe (summaryLines items db),
    by decide, by decide⟩

/-- Claim C9: when the pre-order pattern matches at no position of any
page's text, `changes_made` stays false and the marker performs no write:
the document is left untouched. -/
theorem preorder_no_match_no_write (pages : List Str)
    (searchFor : Nat → Str → List Rect)
    (h : ∀ t ∈ pages, ∀ p, p < t.length → preorderMatchAt t p = none) :
    markPreordersWrites searchFor pages = false := by
  unfold markPreordersWrites enumF
  rw [List.any_eq_false]
  rintro ⟨pi, t⟩ hmem
  have ht : t ∈ pages := (List.of_mem_zip hmem).2
  have hfind : preorderFind t 0 = none := by
    unfold preorderFind
    rw [List.findSome?_eq_none_iff]
    intro q hq
    simp [h t ht q (List.mem_range.mp hq)]
  have hmatches : preorderMatches t = [] := by
    unfold preorderMatches
    rw [preorderMatchesF, hfind]
  simp [hmatches]

/-- Witness for the claim C9 theorem on a concrete match-free document. -/
theorem preorder_no_match_no_write_witness :
    markPreordersWrites (fun _ _ => []) ["hello".toList] = false :=
  preorder_no_match_no_write ["hello".toList] (fun _ _ => []) (by decide)

/-- Claim C10: the size-marker scanning loop terminates: a successful find
returns a position at least the search position and at most five short of
the text length, so the next search position strictly shrinks the
remaining-text measure, and with fuel exceeding that measure the fuelled
loop always completes (never returns the fuel-exhaustion marker). -/
theorem stamper_scan_terminates (text : Str) (start i pos fuel : Nat)
    (searchFor : Str → List Rect) (pi : Nat)
    (hfind : pyFind text ("Size:".toList) start = some i)
    (hfuel : text.length - pos < fuel) :
    (start ≤ i ∧ i + 5 ≤ text.length ∧
      text.length - (i + 1) < text.length - start) ∧
    (stampLoopF searchFor text pi fuel pos).isSome = true := by
  have hb := pyFind_bounds hfind
  have h5 : ("Size:".toList).length = 5 := rfl
  rw [h5] at hb
  exact ⟨⟨hb.1, hb.2, by omega⟩, stampLoopF_total searchFor text pi fuel pos hfuel⟩

/-- Witness for the claim C10 theorem on a concrete page text. -/
theorem stamper_scan_terminates_witness :
    ((0 ≤ 2 ∧ 2 + 5 ≤ ("xxSize:yy".toList).length ∧
      ("xxSize:yy".toList).length - 3 < ("xxSize:yy".toList).length - 0) ∧
    (stampLoopF (fun _ => []) ("xxSize:yy".toList) 0 10 0).isSome = true) :=
  stamper_scan_terminates ("xxSize:yy".toList) 0 2 0 10 (fun _ => []) 0
    (by decide) (by decide)

end Radar
